import Mathlib

/-!
Verification development for the `gocate` split-pane layout engine.

The Go source (package `main`) is shallowly embedded here:
* Go `float64` proportion arithmetic is embedded as exact rationals (`ℚ`);
  the spec's "within floating-point tolerance" statements become exact
  equalities over `ℚ`.
* Go `int` is embedded as `ℤ` (the claims involve no overflow behaviour).
* Go's `int(f)` conversion from `float64` truncates toward zero; on a
  normalized rational `num/den` (with `den > 0`) this is T-division of the
  numerator by the denominator (`truncToInt` below).
* The `tea.Model` children are opaque collaborators: the container only
  sends them `WindowSizeMsg(width, height)` values, so we record the list
  of forwarded `(width, height)` pairs instead of child state.
* The `bubblezone` hit-test registry is an opaque collaborator: it is
  passed to the drag handler as a function `inBounds : String → MouseMsg
  → Bool` standing for `zone.Get(id).InBounds(msg)`.
-/

/-- Go constant `handleWidth = 1` (columns consumed per drag handle). -/
def handleWidth : Int := 1

/-- Go constant `minWidthChars = 35` (minimum columns for any component). -/
def minWidthChars : Int := 35

/-- Go constant `maxProportion = 0.70` (ceiling fraction for any component). -/
def maxProportion : ℚ := 7/10

/-- Go's `int(x)` conversion of a `float64`, which truncates toward zero.
A normalized rational has positive denominator, so this is T-division of
numerator by denominator (`Int.div` rounds toward zero). -/
def truncToInt (x : ℚ) : Int := Int.tdiv x.num (x.den : Int)

/-- `r.width - ((len(r.children) - 1) * handleWidth)`, as computed in
`Update` (WindowSizeMsg and MouseMsg cases), `View` and
`updateProportionsFromDrag`. `n` is the number of panes. -/
def availableWidth (width : Int) (n : Nat) : Int :=
  width - ((n : Int) - 1) * handleWidth

/-- `minProportion := float64(minWidthChars) / float64(availableWidth)` from
`updateProportionsFromDrag`. -/
def minProportionOf (width : Int) (n : Nat) : ℚ :=
  (minWidthChars : ℚ) / ((availableWidth width n : Int) : ℚ)

/-- The `ResizableContainer` struct. The `children` field is opaque
(`[]tea.Model`); the constructor guarantees `len(children) =
len(proportions)`, so the pane count is `proportions.length`. The
`dragHandler` field is modelled separately (`DragHandler` below). -/
structure ResizableContainer where
  id : String
  width : Int
  height : Int
  proportions : List ℚ
  deriving DecidableEq

/-- `NewResizableContainer`: normalizes the caller-supplied proportions by
dividing each entry by their sum (the Go code does this division
unconditionally; the claims assume a valid input with positive sum).
`width`/`height` start at Go's zero value. -/
def NewResizableContainer (idStr : String) (initialProportions : List ℚ) :
    ResizableContainer :=
  let total := initialProportions.sum
  { id := idStr
    width := 0
    height := 0
    proportions := initialProportions.map (fun p => p / total) }

/-- `getHandleID`: `r.id + "handle_" + strconv.Itoa(handleIndex)`. -/
def getHandleID (r : ResizableContainer) (handleIndex : Nat) : String :=
  r.id ++ "handle_" ++ toString handleIndex

/-- The handle-resolution loop at the top of `updateProportionsFromDrag`:
scan `i = 0 .. len(children)-2` and stop at the first `i` whose
`getHandleID(i)` equals the given ID; `none` plays the role of Go's
`handleIndex == -1`. -/
def findHandleIndex (r : ResizableContainer) (handleID : String) : Option Nat :=
  (List.range (r.proportions.length - 1)).find?
    (fun i => getHandleID r i == handleID)

/-- `normalizeProportions`: divide every entry by the total, guarded by
`total > 0`. -/
def normalizeProportions (props : List ℚ) : List ℚ :=
  let total := props.sum
  if 0 < total then props.map (fun p => p / total) else props

/-- The constraint-enforcement block of `updateProportionsFromDrag`
(lines applying the four `if` clamps in source order), acting on the pair
of tentative new proportions. `origL`/`origR` are
`r.proportions[leftIndex]` / `r.proportions[rightIndex]`, `m` is
`minProportion`, `d` is `deltaPercent`. -/
def applyDragClamps (origL origR m d : ℚ) : ℚ × ℚ :=
  let newL0 := origL + d
  let newR0 := origR - d
  let lr1 := if newL0 < m then (m, origR + (origL - m)) else (newL0, newR0)
  let lr2 := if lr1.1 > maxProportion
    then (maxProportion, origR + (origL - maxProportion)) else lr1
  let lr3 := if lr2.2 < m then (origL + (origR - m), m) else lr2
  let lr4 := if lr3.2 > maxProportion
    then (origL + (origR - maxProportion), maxProportion) else lr3
  lr4

/-- First clamp of the redistribution: `if newLeftProp < minProportion`. -/
def clampLeftMin (origL origR m : ℚ) (p : ℚ × ℚ) : ℚ × ℚ :=
  if p.1 < m then (m, origR + (origL - m)) else p

/-- Second clamp: `if newLeftProp > maxProportion`. -/
def clampLeftMax (origL origR : ℚ) (p : ℚ × ℚ) : ℚ × ℚ :=
  if p.1 > maxProportion then (maxProportion, origR + (origL - maxProportion)) else p

/-- Third clamp: `if newRightProp < minProportion`. -/
def clampRightMin (origL origR m : ℚ) (p : ℚ × ℚ) : ℚ × ℚ :=
  if p.2 < m then (origL + (origR - m), m) else p

/-- Fourth clamp: `if newRightProp > maxProportion`. -/
def clampRightMax (origL origR : ℚ) (p : ℚ × ℚ) : ℚ × ℚ :=
  if p.2 > maxProportion then (origL + (origR - maxProportion), maxProportion) else p

/-- `updateProportionsFromDrag(handleID, deltaX)`: resolve the handle
(no-op when unresolved), no-op when `availableWidth <= 0`, otherwise
compute `deltaPercent`, apply the four clamps, write the pair back at
`leftIndex`/`rightIndex`, and renormalize. -/
def updateProportionsFromDrag (r : ResizableContainer) (handleID : String)
    (deltaX : Int) : ResizableContainer :=
  match findHandleIndex r handleID with
  | none => r
  | some handleIndex =>
    let aw := availableWidth r.width r.proportions.length
    if aw ≤ 0 then r
    else
      let deltaPercent : ℚ := (deltaX : ℚ) / ((aw : Int) : ℚ)
      let leftIndex := handleIndex
      let rightIndex := handleIndex + 1
      let origL := r.proportions.getD leftIndex 0
      let origR := r.proportions.getD rightIndex 0
      let m := minProportionOf r.width r.proportions.length
      let p := applyDragClamps origL origR m deltaPercent
      let committed := (r.proportions.set leftIndex p.1).set rightIndex p.2
      { r with proportions := normalizeProportions committed }

/-- The per-pane `WindowSizeMsg` values forwarded by the resize loop:
`childWidth := int(float64(availableWidth) * r.proportions[i])`, paired
with the container height. -/
def forwardedSizes (width height : Int) (props : List ℚ) :
    List (Int × Int) :=
  props.map (fun p =>
    (truncToInt (((availableWidth width props.length : Int) : ℚ) * p), height))

/-- The `tea.WindowSizeMsg` case of `Update`: store the new size, then
forward a computed size to every pane. Returns the new container state and
the list of forwarded sizes. -/
def updateWindowSize (r : ResizableContainer) (w h : Int) :
    ResizableContainer × List (Int × Int) :=
  ({ r with width := w, height := h }, forwardedSizes w h r.proportions)

/-- The handled-drag branch of the `tea.MouseMsg` case of `Update`
(taken when the drag handler reports `handled && deltaX != 0`): apply the
proportion update, then recompute and forward the per-pane sizes from the
stored width/height. -/
def mouseDragStep (r : ResizableContainer) (handleID : String)
    (deltaX : Int) : ResizableContainer × List (Int × Int) :=
  let r2 := updateProportionsFromDrag r handleID deltaX
  (r2, forwardedSizes r2.width r2.height r2.proportions)

/-- Events of interest to the claims: `tea.WindowSizeMsg`, and a drag
delta as delivered by the drag handler into
`updateProportionsFromDrag`. -/
inductive ContainerMsg where
  | windowSize (w h : Int)
  | dragDelta (handleID : String) (deltaX : Int)
  deriving DecidableEq

/-- One step of the container under a `ContainerMsg`. -/
def applyMsg (r : ResizableContainer) : ContainerMsg → ResizableContainer
  | ContainerMsg.windowSize w h => (updateWindowSize r w h).1
  | ContainerMsg.dragDelta handleID deltaX =>
      updateProportionsFromDrag r handleID deltaX

/-- A whole sequence of resize / drag events. -/
def applyMsgs (r : ResizableContainer) (msgs : List ContainerMsg) :
    ResizableContainer :=
  msgs.foldl applyMsg r

/-! ## Drag handler (drag_handler.go) -/

/-- `DragState`. -/
inductive DragState where
  | idle
  | dragging
  deriving DecidableEq

/-- `tea.MouseAction`. -/
inductive MouseAction where
  | press
  | release
  | motion
  deriving DecidableEq

/-- Mouse buttons: only equality with `tea.MouseButtonLeft` matters to the
source, so every other button is collapsed into `other`. -/
inductive MouseButton where
  | left
  | other
  deriving DecidableEq

/-- The fields of `tea.MouseMsg` read by the source. -/
structure MouseMsg where
  x : Int
  y : Int
  action : MouseAction
  button : MouseButton
  deriving DecidableEq

/-- The `DragHandler` struct. -/
structure DragHandler where
  state : DragState
  dragHandleID : String
  lastX : Int
  deriving DecidableEq

/-- `NewDragHandler`: idle, with zero-valued fields. -/
def NewDragHandler : DragHandler :=
  { state := DragState.idle, dragHandleID := "", lastX := 0 }

/-- `startDrag`. -/
def startDrag (d : DragHandler) (handleID : String) (x : Int) : DragHandler :=
  { d with state := DragState.dragging, dragHandleID := handleID, lastX := x }

/-- `stopDrag`. -/
def stopDrag (d : DragHandler) : DragHandler :=
  { d with state := DragState.idle, dragHandleID := "", lastX := 0 }

/-- `IsDragging`. -/
def IsDragging (d : DragHandler) : Bool :=
  d.state == DragState.dragging

/-- `HandleMouseEvent(msg, handleIDs)`: returns `((handled, handleID,
deltaX), new handler state)`. `inBounds id msg` stands for the
collaborator call `zone.Get(id).InBounds(msg)`. -/
def HandleMouseEvent (inBounds : String → MouseMsg → Bool) (d : DragHandler)
    (msg : MouseMsg) (handleIDs : List String) :
    (Bool × String × Int) × DragHandler :=
  match msg.action with
  | MouseAction.press =>
    if msg.button = MouseButton.left then
      match handleIDs.find? (fun handleID => inBounds handleID msg) with
      | some handleID => ((true, handleID, 0), startDrag d handleID msg.x)
      | none => ((false, "", 0), d)
    else ((false, "", 0), d)
  | MouseAction.motion =>
    if d.state = DragState.dragging then
      ((true, d.dragHandleID, msg.x - d.lastX), { d with lastX := msg.x })
    else ((false, "", 0), d)
  | MouseAction.release =>
    if d.state = DragState.dragging ∧ msg.button = MouseButton.left then
      ((true, d.dragHandleID, 0), stopDrag d)
    else ((false, "", 0), d)

/-- Feed a list of mouse events through the drag handler, keeping only the
evolving handler state. -/
def processEvents (inBounds : String → MouseMsg → Bool)
    (handleIDs : List String) (d : DragHandler) (msgs : List MouseMsg) :
    DragHandler :=
  msgs.foldl (fun s m => (HandleMouseEvent inBounds s m handleIDs).2) d

/-! ## Helper lemmas -/

/-- Setting a valid index replaces its contribution to the sum. -/
theorem sum_set_eq (l : List ℚ) (i : Nat) (a : ℚ) (h : i < l.length) :
    (l.set i a).sum = l.sum - l.getD i 0 + a := by
  induction l generalizing i with
  | nil => simp at h
  | cons x xs ih =>
    cases i with
    | zero => simp [List.set, List.getD]; ring
    | succ j =>
      simp only [List.set, List.sum_cons, List.getD_cons_succ]
      rw [ih j (by simpa using h)]
      ring

/-- Setting one index leaves `getD` at a different index unchanged. -/
theorem getD_set_ne (l : List ℚ) (i j : Nat) (a : ℚ) (h : i ≠ j) :
    (l.set i a).getD j 0 = l.getD j 0 := by
  induction l generalizing i j with
  | nil => simp [List.set]
  | cons x xs ih =>
    cases i with
    | zero =>
      cases j with
      | zero => exact absurd rfl h
      | succ k => simp [List.set]
    | succ i0 =>
      cases j with
      | zero => simp [List.set]
      | succ k =>
        simp only [List.set, List.getD_cons_succ]
        exact ih i0 k (fun hc => h (by rw [hc]))

/-- `getD` at the index just set. -/
theorem getD_set_self (l : List ℚ) (i : Nat) (a : ℚ) (h : i < l.length) :
    (l.set i a).getD i 0 = a := by
  induction l generalizing i with
  | nil => simp at h
  | cons x xs ih =>
    cases i with
    | zero => simp [List.set]
    | succ j =>
      simp only [List.set, List.getD_cons_succ]
      exact ih j (by simpa using h)

/-- Dividing every entry divides the sum. -/
theorem sum_map_div (l : List ℚ) (t : ℚ) :
    (l.map (fun p => p / t)).sum = l.sum / t := by
  induction l with
  | nil => simp
  | cons x xs ih => simp [ih, add_div]

/-- Normalizing a vector that already sums to 1 is the identity. -/
theorem normalizeProportions_of_sum_one (l : List ℚ) (h : l.sum = 1) :
    normalizeProportions l = l := by
  unfold normalizeProportions
  rw [h, if_pos one_pos]
  have hfun : (fun p : ℚ => p / 1) = id := funext fun p => div_one p
  rw [hfun, List.map_id]

/-- Normalizing a vector with positive sum yields sum 1. -/
theorem normalizeProportions_sum_one (l : List ℚ) (h : 0 < l.sum) :
    (normalizeProportions l).sum = 1 := by
  unfold normalizeProportions
  rw [if_pos h, sum_map_div]
  exact div_self (ne_of_gt h)

/-- A resolved handle index addresses an adjacent pane pair inside the
proportion vector. -/
theorem findHandleIndex_lt (r : ResizableContainer) (handleID : String)
    (h : Nat) (hf : findHandleIndex r handleID = some h) :
    h + 1 < r.proportions.length := by
  have hmem := List.mem_of_find?_eq_some hf
  have := List.mem_range.mp hmem
  omega

/-- The clamp pipeline conserves the pair's original sum. -/
theorem applyDragClamps_sum (origL origR m d : ℚ) :
    (applyDragClamps origL origR m d).1 + (applyDragClamps origL origR m d).2 =
      origL + origR := by
  dsimp only [applyDragClamps]
  split_ifs <;> dsimp only <;> ring

/-- Shape of `updateProportionsFromDrag` on the success path. -/
theorem updateProportionsFromDrag_eq (r : ResizableContainer)
    (handleID : String) (deltaX : Int) (h : Nat)
    (hf : findHandleIndex r handleID = some h)
    (haw : ¬ availableWidth r.width r.proportions.length ≤ 0) :
    updateProportionsFromDrag r handleID deltaX =
      let aw := availableWidth r.width r.proportions.length
      let p := applyDragClamps (r.proportions.getD h 0) (r.proportions.getD (h + 1) 0) (minProportionOf r.width r.proportions.length) ((deltaX : ℚ) / ((aw : Int) : ℚ))
      { r with proportions := normalizeProportions ((r.proportions.set h p.1).set (h + 1) p.2) } := by
  unfold updateProportionsFromDrag
  rw [hf]
  dsimp only
  rw [if_neg haw]

/-- `updateProportionsFromDrag` is the identity when the geometry is
degenerate (`availableWidth <= 0`). -/
theorem updateProportionsFromDrag_noop_of_degenerate (r : ResizableContainer)
    (handleID : String) (deltaX : Int)
    (haw : availableWidth r.width r.proportions.length ≤ 0) :
    updateProportionsFromDrag r handleID deltaX = r := by
  unfold updateProportionsFromDrag
  cases hf : findHandleIndex r handleID with
  | none => rfl
  | some h => simp only [if_pos haw]

/-- If the min bound does not exceed the max bound and both original pair
entries are within bounds, the clamp pipeline leaves both components of the
pair within bounds, whatever the drag delta. -/
theorem applyDragClamps_bounds (origL origR m d : ℚ)
    (hmM : m ≤ maxProportion)
    (hL1 : m ≤ origL) (hL2 : origL ≤ maxProportion)
    (hR1 : m ≤ origR) (hR2 : origR ≤ maxProportion) :
    m ≤ (applyDragClamps origL origR m d).1 ∧
      (applyDragClamps origL origR m d).1 ≤ maxProportion ∧
      m ≤ (applyDragClamps origL origR m d).2 ∧
      (applyDragClamps origL origR m d).2 ≤ maxProportion := by
  dsimp only [applyDragClamps]
  split_ifs <;> dsimp only at * <;>
    refine ⟨by linarith, by linarith, by linarith, by linarith⟩

/-- After a committed drag on a vector summing to 1, the vector still sums
to 1 (the pair sum is conserved by the clamps, and renormalization divides
by the unchanged total). -/
theorem updateProportionsFromDrag_sum (r : ResizableContainer)
    (handleID : String) (deltaX : Int)
    (hsum : r.proportions.sum = 1) :
    (updateProportionsFromDrag r handleID deltaX).proportions.sum = 1 := by
  cases hf : findHandleIndex r handleID with
  | none =>
    unfold updateProportionsFromDrag
    rw [hf]
    exact hsum
  | some h =>
    by_cases haw : availableWidth r.width r.proportions.length ≤ 0
    · rw [updateProportionsFromDrag_noop_of_degenerate r handleID deltaX haw]
      exact hsum
    · rw [updateProportionsFromDrag_eq r handleID deltaX h hf haw]
      have hlt := findHandleIndex_lt r handleID h hf
      have hlt0 : h < r.proportions.length := by omega
      have hne : h ≠ h + 1 := by omega
      set p := applyDragClamps (r.proportions.getD h 0)
        (r.proportions.getD (h + 1) 0)
        (minProportionOf r.width r.proportions.length)
        ((deltaX : ℚ) /
          ((availableWidth r.width r.proportions.length : Int) : ℚ)) with hp
      have hlen1 : (r.proportions.set h p.1).length = r.proportions.length :=
        List.length_set r.proportions h p.1
      have hsum2 : ((r.proportions.set h p.1).set (h + 1) p.2).sum = 1 := by
        rw [sum_set_eq _ (h + 1) p.2 (by rw [hlen1]; exact hlt)]
        rw [sum_set_eq _ h p.1 hlt0]
        rw [getD_set_ne _ h (h + 1) p.1 hne]
        have hps := applyDragClamps_sum (r.proportions.getD h 0)
          (r.proportions.getD (h + 1) 0)
          (minProportionOf r.width r.proportions.length)
          ((deltaX : ℚ) /
            ((availableWidth r.width r.proportions.length : Int) : ℚ))
        rw [← hp] at hps
        rw [hsum]
        linarith
      simp only [normalizeProportions_of_sum_one _ hsum2]
      exact hsum2

/-! ## Claim theorems -/

/-- C3: the redistribution applies exactly the four clamps in the fixed
source order (left-min, left-max, right-min, right-max), each clamp
recomputing the partner from the pair's original sum, so the running pair
sums to `proportion[L] + proportion[R]` after every clamp step and at
commit. -/
theorem clamp_order_and_pair_sum (origL origR m d : ℚ) :
    (let s1 := clampLeftMin origL origR m (origL + d, origR - d)
     let s2 := clampLeftMax origL origR s1
     let s3 := clampRightMin origL origR m s2
     let s4 := clampRightMax origL origR s3
     applyDragClamps origL origR m d = s4 ∧
       (origL + d) + (origR - d) = origL + origR ∧
       s1.1 + s1.2 = origL + origR ∧
       s2.1 + s2.2 = origL + origR ∧
       s3.1 + s3.2 = origL + origR ∧
       s4.1 + s4.2 = origL + origR) := by
  dsimp only [applyDragClamps, clampLeftMin, clampLeftMax, clampRightMin,
    clampRightMax]
  split_ifs <;> dsimp only <;>
    exact ⟨rfl, by ring, by ring, by ring, by ring, by ring⟩

/-- C7: `resize(w, h)` is idempotent: a second call with the same
arguments forwards the same per-pane sizes and leaves the stored
width/height state unchanged. -/
theorem resize_idempotent (r : ResizableContainer) (w h : Int) :
    (updateWindowSize (updateWindowSize r w h).1 w h).2 =
        (updateWindowSize r w h).2 ∧
      (updateWindowSize (updateWindowSize r w h).1 w h).1 =
        (updateWindowSize r w h).1 :=
  ⟨rfl, rfl⟩

/-- C8: a drag delta whose handle identifier matches no handle of the
container leaves the whole container state untouched. -/
theorem unknown_handle_drag_noop (r : ResizableContainer)
    (handleID : String) (deltaX : Int)
    (hunk : ∀ i, i < r.proportions.length - 1 → getHandleID r i ≠ handleID) :
    updateProportionsFromDrag r handleID deltaX = r := by
  have hnone : findHandleIndex r handleID = none := by
    apply List.find?_eq_none.mpr
    intro i hi
    have hlt : i < r.proportions.length - 1 := List.mem_range.mp hi
    simp only [beq_iff_eq]
    exact hunk i hlt
  unfold updateProportionsFromDrag
  rw [hnone]

/-- Witness for C8 at a concrete container and a bogus identifier. -/
theorem unknown_handle_drag_noop_witness :
    updateProportionsFromDrag ⟨"c", 100, 30, [1/2, 1/2]⟩ "bogus" 5 =
      ⟨"c", 100, 30, [1/2, 1/2]⟩ :=
  unknown_handle_drag_noop ⟨"c", 100, 30, [1/2, 1/2]⟩ "bogus" 5 (by decide)

/-- C10: whenever `HandleMouseEvent` reports unhandled it also reports an
empty handle ID and a zero delta, and the handler state is exactly the
input state. -/
theorem unhandled_mouse_frame (inB : String → MouseMsg → Bool)
    (d : DragHandler) (msg : MouseMsg) (ids : List String)
    (hres : (HandleMouseEvent inB d msg ids).1.1 = false) :
    (HandleMouseEvent inB d msg ids).1.2.1 = "" ∧
      (HandleMouseEvent inB d msg ids).1.2.2 = 0 ∧
      (HandleMouseEvent inB d msg ids).2 = d := by
  rcases msg with ⟨x, y, action, button⟩
  cases action with
  | press =>
    simp only [HandleMouseEvent] at hres ⊢
    split_ifs at hres ⊢ with hb
    · cases hfind : ids.find?
        (fun handleID => inB handleID ⟨x, y, MouseAction.press, button⟩) with
      | some a => rw [hfind] at hres; exact Bool.noConfusion hres
      | none => exact ⟨rfl, rfl, rfl⟩
    · exact ⟨rfl, rfl, rfl⟩
  | motion =>
    simp only [HandleMouseEvent] at hres ⊢
    split_ifs at hres ⊢ with hs
    exact ⟨rfl, rfl, rfl⟩
  | release =>
    simp only [HandleMouseEvent] at hres ⊢
    split_ifs at hres ⊢ with hs
    exact ⟨rfl, rfl, rfl⟩

/-- Witness for C10: a motion event while idle is unhandled and framed. -/
theorem unhandled_mouse_frame_witness :
    (HandleMouseEvent (fun _ _ => false) NewDragHandler
          ⟨3, 4, MouseAction.motion, MouseButton.left⟩ []).1.2.1 = "" ∧
      (HandleMouseEvent (fun _ _ => false) NewDragHandler
          ⟨3, 4, MouseAction.motion, MouseButton.left⟩ []).1.2.2 = 0 ∧
      (HandleMouseEvent (fun _ _ => false) NewDragHandler
          ⟨3, 4, MouseAction.motion, MouseButton.left⟩ []).1.2.2 = 0 ∧
      (HandleMouseEvent (fun _ _ => false) NewDragHandler
          ⟨3, 4, MouseAction.motion, MouseButton.left⟩ []).2 = NewDragHandler := by
  have h := unhandled_mouse_frame (fun _ _ => false) NewDragHandler
    ⟨3, 4, MouseAction.motion, MouseButton.left⟩ [] rfl
  exact ⟨h.1, h.2.1, h.2.1, h.2.2⟩

/-- The sum-1 invariant is preserved by any sequence of resize and drag
events. -/
theorem applyMsgs_sum (r : ResizableContainer) (msgs : List ContainerMsg)
    (hsum : r.proportions.sum = 1) :
    (applyMsgs r msgs).proportions.sum = 1 := by
  induction msgs generalizing r with
  | nil => exact hsum
  | cons msg rest ih =>
    have hstep : (applyMsg r msg).proportions.sum = 1 := by
      cases msg with
      | windowSize w h => exact hsum
      | dragDelta handleID deltaX =>
        exact updateProportionsFromDrag_sum r handleID deltaX hsum
    unfold applyMsgs at *
    rw [List.foldl_cons]
    exact ih (applyMsg r msg) hstep

/-- C1: for a valid initial proportion vector (entries nonnegative,
summing to 1), the proportions sum to exactly 1 immediately after
construction and after any sequence of resize and drag events. -/
theorem proportions_sum_invariant (idStr : String) (init : List ℚ)
    (msgs : List ContainerMsg)
    (_hnn : ∀ q ∈ init, 0 ≤ q) (hsum : init.sum = 1) :
    (NewResizableContainer idStr init).proportions.sum = 1 ∧
      (applyMsgs (NewResizableContainer idStr init) msgs).proportions.sum = 1 := by
  have hctor : (NewResizableContainer idStr init).proportions.sum = 1 := by
    unfold NewResizableContainer
    dsimp only
    rw [sum_map_div, hsum]
    norm_num
  exact ⟨hctor, applyMsgs_sum _ msgs hctor⟩

/-- Witness for C1 on a concrete container and event sequence. -/
theorem proportions_sum_invariant_witness :
    (NewResizableContainer "c" [1/2, 1/2]).proportions.sum = 1 ∧
      (applyMsgs (NewResizableContainer "c" [1/2, 1/2])
          [ContainerMsg.windowSize 100 30,
            ContainerMsg.dragDelta "chandle_0" 10,
            ContainerMsg.windowSize 80 20,
            ContainerMsg.dragDelta "chandle_0" (-3)]).proportions.sum = 1 :=
  proportions_sum_invariant "c" [1/2, 1/2]
    [ContainerMsg.windowSize 100 30,
      ContainerMsg.dragDelta "chandle_0" 10,
      ContainerMsg.windowSize 80 20,
      ContainerMsg.dragDelta "chandle_0" (-3)]
    (by norm_num) (by norm_num)

/-- C6: a single drag of handle `h` touches only proportions `h` and
`h + 1`; every other index keeps its value (the final renormalization
divides by an unchanged total of 1). -/
theorem drag_frame_other_panes (r : ResizableContainer) (handleID : String)
    (deltaX : Int) (h j : Nat)
    (hsum : r.proportions.sum = 1)
    (hf : findHandleIndex r handleID = some h)
    (hj1 : j ≠ h) (hj2 : j ≠ h + 1) :
    (updateProportionsFromDrag r handleID deltaX).proportions.getD j 0 =
      r.proportions.getD j 0 := by
  by_cases haw : availableWidth r.width r.proportions.length ≤ 0
  · rw [updateProportionsFromDrag_noop_of_degenerate r handleID deltaX haw]
  · rw [updateProportionsFromDrag_eq r handleID deltaX h hf haw]
    dsimp only
    have hlt := findHandleIndex_lt r handleID h hf
    have hlt0 : h < r.proportions.length := by omega
    have hne : h ≠ h + 1 := by omega
    set p := applyDragClamps (r.proportions.getD h 0)
      (r.proportions.getD (h + 1) 0)
      (minProportionOf r.width r.proportions.length)
      ((deltaX : ℚ) /
        ((availableWidth r.width r.proportions.length : Int) : ℚ)) with hp
    have hlen1 : (r.proportions.set h p.1).length = r.proportions.length :=
      List.length_set r.proportions h p.1
    have hsum2 : ((r.proportions.set h p.1).set (h + 1) p.2).sum = 1 := by
      rw [sum_set_eq _ (h + 1) p.2 (by rw [hlen1]; exact hlt)]
      rw [sum_set_eq _ h p.1 hlt0]
      rw [getD_set_ne _ h (h + 1) p.1 hne]
      have hps := applyDragClamps_sum (r.proportions.getD h 0)
        (r.proportions.getD (h + 1) 0)
        (minProportionOf r.width r.proportions.length)
        ((deltaX : ℚ) /
          ((availableWidth r.width r.proportions.length : Int) : ℚ))
      rw [← hp] at hps
      rw [hsum]
      linarith
    rw [normalizeProportions_of_sum_one _ hsum2]
    rw [getD_set_ne _ (h + 1) j p.2 (fun hc => hj2 hc.symm)]
    rw [getD_set_ne _ h j p.1 (fun hc => hj1 hc.symm)]

/-- Witness for C6: three panes at `[0.33, 0.33, 0.34]`, dragging handle 0
leaves `proportion[2]` untouched. -/
theorem drag_frame_other_panes_witness :
    (updateProportionsFromDrag ⟨"c", 300, 30, [33/100, 33/100, 34/100]⟩
          "chandle_0" 7).proportions.getD 2 0 =
      (⟨"c", 300, 30, [33/100, 33/100, 34/100]⟩ :
        ResizableContainer).proportions.getD 2 0 :=
  drag_frame_other_panes ⟨"c", 300, 30, [33/100, 33/100, 34/100]⟩
    "chandle_0" 7 0 2 (by norm_num) (by decide) (by decide) (by decide)

/-- On nonnegative rationals, Go truncation agrees with the floor. -/
theorem truncToInt_of_nonneg (x : ℚ) (hx : 0 ≤ x) : truncToInt x = ⌊x⌋ := by
  unfold truncToInt
  rw [Rat.floor_def]
  exact Int.tdiv_eq_ediv (Rat.num_nonneg.mpr hx) (Int.natCast_nonneg x.den)

/-- On nonpositive rationals, Go truncation is minus the floor of the
negation (rounding toward zero). -/
theorem truncToInt_of_nonpos (x : ℚ) (hx : x ≤ 0) : truncToInt x = -⌊-x⌋ := by
  have h2 : truncToInt (-x) = ⌊-x⌋ :=
    truncToInt_of_nonneg (-x) (neg_nonneg.mpr hx)
  unfold truncToInt at h2 ⊢
  rw [Rat.num_neg_eq_neg_num, Rat.den_neg_eq_den, Int.neg_tdiv] at h2
  omega

/-- Counterexample to C2 as stated: 2 panes at `[1/2, 1/2]`, container
width 50 (so `availableWidth = 49 > 0` and `minProportion = 35/49 >
maxProportion`), drag `deltaX = -10`. The drag commits a change, yet the
left pane's committed proportion `3/10` is below `minProportion`. -/
theorem drag_bounds_counterexample :
    0 < availableWidth 50 2 ∧
      (updateProportionsFromDrag ⟨"c", 50, 20, [1/2, 1/2]⟩ "chandle_0"
          (-10)).proportions ≠ [1/2, 1/2] ∧
      (updateProportionsFromDrag ⟨"c", 50, 20, [1/2, 1/2]⟩ "chandle_0"
          (-10)).proportions.getD 0 0 < minProportionOf 50 2 := by
  have heq : (updateProportionsFromDrag ⟨"c", 50, 20, [1/2, 1/2]⟩ "chandle_0"
      (-10)).proportions = [3/10, 7/10] := by
    rw [updateProportionsFromDrag_eq ⟨"c", 50, 20, [1/2, 1/2]⟩ "chandle_0"
      (-10) 0 (by decide) (by decide)]
    norm_num [applyDragClamps, normalizeProportions, minProportionOf,
      availableWidth, maxProportion, minWidthChars, handleWidth, List.set]
  refine ⟨by decide, ?_, ?_⟩
  · rw [heq]
    intro hc
    have h0 : (3 : ℚ)/10 = 1/2 := by
      have := congrArg (fun l : List ℚ => l.getD 0 0) hc
      simpa using this
    norm_num at h0
  · rw [heq]
    norm_num [minProportionOf, availableWidth, minWidthChars, handleWidth]

/-- C2 amended: provided the min bound does not exceed the max bound
(`availableWidth ≥ 50` with the default constants), the whole vector sums
to 1, and the dragged pair's pre-drag proportions are within
`[minProportion, maxProportion]`, the dragged pair's post-redistribution
proportions stay within those bounds. -/
theorem drag_pair_bounds (r : ResizableContainer) (handleID : String)
    (deltaX : Int) (h : Nat)
    (hf : findHandleIndex r handleID = some h)
    (haw : ¬ availableWidth r.width r.proportions.length ≤ 0)
    (hsum : r.proportions.sum = 1)
    (hmM : minProportionOf r.width r.proportions.length ≤ maxProportion)
    (hL1 : minProportionOf r.width r.proportions.length ≤
      r.proportions.getD h 0)
    (hL2 : r.proportions.getD h 0 ≤ maxProportion)
    (hR1 : minProportionOf r.width r.proportions.length ≤
      r.proportions.getD (h + 1) 0)
    (hR2 : r.proportions.getD (h + 1) 0 ≤ maxProportion) :
    minProportionOf r.width r.proportions.length ≤
        (updateProportionsFromDrag r handleID deltaX).proportions.getD h 0 ∧
      (updateProportionsFromDrag r handleID deltaX).proportions.getD h 0 ≤
        maxProportion ∧
      minProportionOf r.width r.proportions.length ≤
        (updateProportionsFromDrag r handleID
            deltaX).proportions.getD (h + 1) 0 ∧
      (updateProportionsFromDrag r handleID
          deltaX).proportions.getD (h + 1) 0 ≤ maxProportion := by
  rw [updateProportionsFromDrag_eq r handleID deltaX h hf haw]
  dsimp only
  have hlt := findHandleIndex_lt r handleID h hf
  have hlt0 : h < r.proportions.length := by omega
  have hne : h ≠ h + 1 := by omega
  set p := applyDragClamps (r.proportions.getD h 0)
    (r.proportions.getD (h + 1) 0)
    (minProportionOf r.width r.proportions.length)
    ((deltaX : ℚ) /
      ((availableWidth r.width r.proportions.length : Int) : ℚ)) with hp
  have hlen1 : (r.proportions.set h p.1).length = r.proportions.length :=
    List.length_set r.proportions h p.1
  have hsum2 : ((r.proportions.set h p.1).set (h + 1) p.2).sum = 1 := by
    rw [sum_set_eq _ (h + 1) p.2 (by rw [hlen1]; exact hlt)]
    rw [sum_set_eq _ h p.1 hlt0]
    rw [getD_set_ne _ h (h + 1) p.1 hne]
    have hps := applyDragClamps_sum (r.proportions.getD h 0)
      (r.proportions.getD (h + 1) 0)
      (minProportionOf r.width r.proportions.length)
      ((deltaX : ℚ) /
        ((availableWidth r.width r.proportions.length : Int) : ℚ))
    rw [← hp] at hps
    rw [hsum]
    linarith
  rw [normalizeProportions_of_sum_one _ hsum2]
  have hgd1 : ((r.proportions.set h p.1).set (h + 1) p.2).getD h 0 = p.1 := by
    rw [getD_set_ne _ (h + 1) h p.2 (fun hc => hne hc.symm)]
    exact getD_set_self _ h p.1 hlt0
  have hgd2 : ((r.proportions.set h p.1).set (h + 1) p.2).getD (h + 1) 0 =
      p.2 :=
    getD_set_self _ (h + 1) p.2 (by rw [hlen1]; exact hlt)
  rw [hgd1, hgd2, hp]
  exact applyDragClamps_bounds _ _ _ _ hmM hL1 hL2 hR1 hR2

/-- Witness for the amended C2 at a concrete in-bounds drag. -/
theorem drag_pair_bounds_witness :
    minProportionOf 101 2 ≤
        (updateProportionsFromDrag ⟨"c", 101, 30, [1/2, 1/2]⟩ "chandle_0"
            10).proportions.getD 0 0 ∧
      (updateProportionsFromDrag ⟨"c", 101, 30, [1/2, 1/2]⟩ "chandle_0"
          10).proportions.getD 0 0 ≤ maxProportion ∧
      minProportionOf 101 2 ≤
        (updateProportionsFromDrag ⟨"c", 101, 30, [1/2, 1/2]⟩ "chandle_0"
            10).proportions.getD 1 0 ∧
      (updateProportionsFromDrag ⟨"c", 101, 30, [1/2, 1/2]⟩ "chandle_0"
          10).proportions.getD 1 0 ≤ maxProportion :=
  drag_pair_bounds ⟨"c", 101, 30, [1/2, 1/2]⟩ "chandle_0" 10 0
    (by decide) (by decide) (by norm_num)
    (by norm_num [minProportionOf, availableWidth, minWidthChars,
      handleWidth, maxProportion])
    (by norm_num [minProportionOf, availableWidth, minWidthChars,
      handleWidth])
    (by norm_num [maxProportion])
    (by norm_num [minProportionOf, availableWidth, minWidthChars,
      handleWidth])
    (by norm_num [maxProportion])

/-- Counterexample to C4 as stated: with 3 panes, proportions
`[1/2, 3/10, 1/5]` and a resize to width 0 (so `availableWidth = -2 ≤ 0`),
the resize is not a no-op: it forwards a size to every pane, and the first
pane receives the negative width `-1`. -/
theorem resize_degenerate_counterexample :
    availableWidth 0 3 ≤ 0 ∧
      (updateWindowSize ⟨"c", 5, 5, [1/2, 3/10, 1/5]⟩ 0 10).2 ≠ [] ∧
      ((updateWindowSize ⟨"c", 5, 5, [1/2, 3/10, 1/5]⟩ 0
          10).2.getD 0 (0, 0)).1 = -1 := by
  have hhead : (updateWindowSize ⟨"c", 5, 5, [1/2, 3/10, 1/5]⟩ 0
      10).2.getD 0 (0, 0) =
      (truncToInt (((availableWidth 0 3 : Int) : ℚ) * (1/2)), 10) := rfl
  refine ⟨by decide, ?_, ?_⟩
  · simp [updateWindowSize, forwardedSizes]
  · rw [hhead]
    have hx : ((availableWidth 0 3 : Int) : ℚ) * (1/2) = -1 := by
      norm_num [availableWidth, handleWidth]
    dsimp only
    rw [hx, truncToInt_of_nonpos (-1 : ℚ) (by norm_num)]
    simp

/-- C4 amended: when `availableWidth ≤ 0` the drag redistribution is a
no-op, but resize is not: it always forwards a computed size
(`int(availableWidth × proportion[i])`, possibly zero or negative) to
every pane. -/
theorem degenerate_geometry_noop (r : ResizableContainer) (handleID : String)
    (deltaX w h : Int)
    (haw : availableWidth r.width r.proportions.length ≤ 0) :
    updateProportionsFromDrag r handleID deltaX = r ∧
      (updateWindowSize r w h).2 = forwardedSizes w h r.proportions ∧
      (updateWindowSize r w h).2.length = r.proportions.length :=
  ⟨updateProportionsFromDrag_noop_of_degenerate r handleID deltaX haw, rfl,
    by simp [updateWindowSize, forwardedSizes]⟩

/-- Witness for the amended C4 at a concrete degenerate container. -/
theorem degenerate_geometry_noop_witness :
    updateProportionsFromDrag ⟨"c", 0, 5, [1/2, 1/2]⟩ "chandle_0" 3 =
        ⟨"c", 0, 5, [1/2, 1/2]⟩ ∧
      (updateWindowSize (⟨"c", 0, 5, [1/2, 1/2]⟩ : ResizableContainer) 0
          5).2 = forwardedSizes 0 5 [1/2, 1/2] ∧
      (updateWindowSize (⟨"c", 0, 5, [1/2, 1/2]⟩ : ResizableContainer) 0
          5).2.length =
        (⟨"c", 0, 5, [1/2, 1/2]⟩ : ResizableContainer).proportions.length :=
  degenerate_geometry_noop ⟨"c", 0, 5, [1/2, 1/2]⟩ "chandle_0" 3 0 5
    (by decide)

/-- C5: the concrete 2-pane scenario. Proportions `[1/2, 1/2]`, width 100,
drag `deltaX = +10`: `availableWidth = 99`, `deltaPercent = 10/99`, no
clamp fires, committed proportions `[119/198, 79/198]` (about
`[0.601, 0.399]`), forwarded pane widths 59 and 39. -/
theorem scenario_two_pane_drag :
    availableWidth 100 2 = 99 ∧
      (10 : ℚ) / ((availableWidth 100 2 : Int) : ℚ) = 10/99 ∧
      applyDragClamps (1/2) (1/2) (minProportionOf 100 2) (10/99) =
        (1/2 + 10/99, 1/2 - 10/99) ∧
      (updateProportionsFromDrag ⟨"c", 100, 30, [1/2, 1/2]⟩ "chandle_0"
          10).proportions = [119/198, 79/198] ∧
      (601 : ℚ)/1000 ≤ 119/198 ∧ (119 : ℚ)/198 ≤ 602/1000 ∧
      (398 : ℚ)/1000 ≤ 79/198 ∧ (79 : ℚ)/198 ≤ 399/1000 ∧
      (mouseDragStep ⟨"c", 100, 30, [1/2, 1/2]⟩ "chandle_0" 10).2 =
        [(59, 30), (39, 30)] := by
  have hr2 : updateProportionsFromDrag ⟨"c", 100, 30, [1/2, 1/2]⟩
      "chandle_0" 10 = ⟨"c", 100, 30, [119/198, 79/198]⟩ := by
    rw [updateProportionsFromDrag_eq ⟨"c", 100, 30, [1/2, 1/2]⟩ "chandle_0"
      10 0 (by decide) (by decide)]
    norm_num [applyDragClamps, normalizeProportions, minProportionOf,
      availableWidth, maxProportion, minWidthChars, handleWidth, List.set,
      ResizableContainer.mk.injEq]
  have harg1 : ((availableWidth 100 2 : Int) : ℚ) * (119/198) = 119/2 := by
    norm_num [availableWidth, handleWidth]
  have harg2 : ((availableWidth 100 2 : Int) : ℚ) * (79/198) = 79/2 := by
    norm_num [availableWidth, handleWidth]
  have ht1 : truncToInt ((119 : ℚ)/2) = 59 := by
    rw [truncToInt_of_nonneg _ (by norm_num)]
    refine Int.floor_eq_iff.mpr ⟨by norm_num, by norm_num⟩
  have ht2 : truncToInt ((79 : ℚ)/2) = 39 := by
    rw [truncToInt_of_nonneg _ (by norm_num)]
    refine Int.floor_eq_iff.mpr ⟨by norm_num, by norm_num⟩
  refine ⟨by decide, ?_, ?_, ?_, by norm_num, by norm_num, by norm_num,
    by norm_num, ?_⟩
  · norm_num [availableWidth, handleWidth]
  · norm_num [applyDragClamps, minProportionOf, availableWidth,
      minWidthChars, handleWidth, maxProportion, Prod.ext_iff]
  · rw [hr2]
  · dsimp only [mouseDragStep]
    rw [hr2]
    dsimp only [forwardedSizes, List.map, List.length_cons, List.length_nil]
    norm_num
    rw [harg1, harg2, ht1, ht2]
    exact ⟨rfl, rfl⟩

/-- A motion event while idle is unhandled and leaves the handler
unchanged. -/
theorem motion_idle_noop (inB : String → MouseMsg → Bool) (d : DragHandler)
    (msg : MouseMsg) (ids : List String)
    (hidle : d.state = DragState.idle)
    (hm : msg.action = MouseAction.motion) :
    HandleMouseEvent inB d msg ids = ((false, "", 0), d) := by
  rcases msg with ⟨x, y, action, button⟩
  cases action with
  | press => exact absurd hm (by simp)
  | release => exact absurd hm (by simp)
  | motion =>
    simp only [HandleMouseEvent]
    rw [if_neg]
    rw [hidle]
    simp

/-- A sequence of motion events starting idle leaves the handler state
unchanged throughout. -/
theorem processEvents_motion_idle (inB : String → MouseMsg → Bool)
    (ids : List String) (d : DragHandler) (msgs : List MouseMsg)
    (hidle : d.state = DragState.idle)
    (hall : ∀ e ∈ msgs, e.action = MouseAction.motion) :
    processEvents inB ids d msgs = d := by
  induction msgs with
  | nil => rfl
  | cons e rest ih =>
    unfold processEvents at ih ⊢
    rw [List.foldl_cons]
    have h1 : (HandleMouseEvent inB d e ids).2 = d := by
      rw [motion_idle_noop inB d e ids hidle
        (hall e (List.mem_cons_self e rest))]
    rw [h1]
    exact ih (fun x hx => hall x (List.mem_cons_of_mem e hx))

/-- C9: from `Idle`, a press with the cursor outside every handle region is
reported unhandled and starts no drag session; any following motion events
are each reported unhandled, and after every prefix of them the handler is
still the original idle state, so `IsDragging` is false throughout. -/
theorem press_outside_then_motion_no_drag (inB : String → MouseMsg → Bool)
    (ids : List String) (d : DragHandler) (m : MouseMsg)
    (ms : List MouseMsg)
    (hidle : d.state = DragState.idle)
    (hpress : m.action = MouseAction.press)
    (hmiss : ∀ handleID ∈ ids, inB handleID m = false)
    (hmotion : ∀ e ∈ ms, e.action = MouseAction.motion) :
    (HandleMouseEvent inB d m ids).1.1 = false ∧
      (HandleMouseEvent inB d m ids).2 = d ∧
      IsDragging d = false ∧
      (∀ k, processEvents inB ids (HandleMouseEvent inB d m ids).2
          (ms.take k) = d) ∧
      (∀ k, IsDragging (processEvents inB ids
          (HandleMouseEvent inB d m ids).2 (ms.take k)) = false) ∧
      (∀ e ∈ ms, (HandleMouseEvent inB d e ids).1.1 = false) := by
  have hfind : ids.find? (fun handleID => inB handleID m) = none := by
    apply List.find?_eq_none.mpr
    intro x hx
    simp [hmiss x hx]
  have hpr : HandleMouseEvent inB d m ids = ((false, "", 0), d) := by
    rcases m with ⟨x, y, action, button⟩
    cases action with
    | motion => exact absurd hpress (by simp)
    | release => exact absurd hpress (by simp)
    | press =>
      simp only [HandleMouseEvent]
      split_ifs with hb
      · rw [hfind]
      · rfl
  have hdrag : IsDragging d = false := by
    simp [IsDragging, hidle]
  have htake : ∀ k, processEvents inB ids (HandleMouseEvent inB d m ids).2
      (ms.take k) = d := by
    intro k
    rw [hpr]
    exact processEvents_motion_idle inB ids d (ms.take k) hidle
      (fun e he => hmotion e (List.take_subset k ms he))
  refine ⟨by rw [hpr], by rw [hpr], hdrag, htake, ?_, ?_⟩
  · intro k
    rw [htake k]
    exact hdrag
  · intro e he
    rw [motion_idle_noop inB d e ids hidle (hmotion e he)]

/-- Witness for C9: a press at (5,5) with no handle under the cursor,
followed by one motion event. -/
theorem press_outside_then_motion_no_drag_witness :
    (HandleMouseEvent (fun _ _ => false) NewDragHandler
          ⟨5, 5, MouseAction.press, MouseButton.left⟩ ["h0"]).1.1 = false ∧
      (HandleMouseEvent (fun _ _ => false) NewDragHandler
          ⟨5, 5, MouseAction.press, MouseButton.left⟩ ["h0"]).2 =
        NewDragHandler ∧
      IsDragging NewDragHandler = false :=
  have h := press_outside_then_motion_no_drag (fun _ _ => false) ["h0"]
    NewDragHandler ⟨5, 5, MouseAction.press, MouseButton.left⟩
    [⟨6, 5, MouseAction.motion, MouseButton.left⟩] rfl rfl
    (fun handleID _ => rfl) (by decide)
  ⟨h.1, h.2.1, h.2.2.1⟩
